import Mathlib

/-!
Verification of the venue scoring and filtering pipeline of the
lets-eat application against its natural-language specification.

The JavaScript sources are shallowly embedded as Lean functions:

* `HoursParser.isCurrentlyOpen` (src/js/hours-parser.js) becomes
  `isCurrentlyOpen`, with the observation of the wall clock
  (weekday and minute-of-day) made an explicit argument;
* `HoursParser.estimateCongestionFromReviews` becomes
  `estimateCongestionFromReviews`;
* the filter, sort and congestion logic of `PlacesService`
  (src/unnamed/part_000: `searchNearby`, `estimateCongestion`,
  `extractAtmosphereFromReviews`) becomes `filterStage`, `sortStage`,
  `estimateCongestion` and `extractAtmosphereFromReviews`.

JavaScript tri-states (`true` / `false` / `null`) are embedded as
`Option Bool`; nullable numeric fields as `Option` types; non-integral
numbers (ratings, distances) as `ℚ`.
-/

namespace LetsEat

/-! ### String helpers (JavaScript `String.prototype.includes`) -/

/-- Boolean test that `needle` occurs as a contiguous run inside `haystack`,
the semantics of JavaScript `haystack.includes(needle)`. -/
def listContainsSub (needle : List Char) : List Char → Bool
  | [] => needle.isEmpty
  | c :: rest => needle.isPrefixOf (c :: rest) || listContainsSub needle rest

/-- JavaScript `hay.includes(needle)` on strings. -/
def strIncludes (hay needle : String) : Bool :=
  listContainsSub needle.data hay.data

/-! ### The time-range pattern of `HoursParser.isCurrentlyOpen`

The source extracts one time range with the regular expression
matching one or two digits, the hour mark, exactly two digits, an
optional minute mark, one of four separator glyphs, and the same
shape again for the closing time.  The matcher below reproduces the
left-to-right, greedy-with-backtracking semantics of that pattern. -/

/-- Numeric value of a decimal digit character. -/
def digitVal (c : Char) : Nat := c.toNat - '0'.toNat

/-- Match one or two digits followed by the hour mark at the head of the
list, preferring two digits as the regular expression does, and return
the parsed value with the remainder. -/
def parseHourAt : List Char → Option (Nat × List Char)
  | a :: b :: c :: rest =>
    if a.isDigit && b.isDigit && c == '時' then
      some (digitVal a * 10 + digitVal b, rest)
    else if a.isDigit && b == '時' then
      some (digitVal a, c :: rest)
    else none
  | [a, b] =>
    if a.isDigit && b == '時' then some (digitVal a, []) else none
  | _ => none

/-- Match exactly two digits at the head of the list. -/
def parseMin2 : List Char → Option (Nat × List Char)
  | a :: b :: rest =>
    if a.isDigit && b.isDigit then some (digitVal a * 10 + digitVal b, rest)
    else none
  | _ => none

/-- The four separator glyphs accepted between the two times. -/
def isRangeSep (c : Char) : Bool :=
  c == '～' || c == '〜' || c == '~' || c == '-'

/-- Match the optional minute mark followed by a separator glyph and
return the remainder after the separator. -/
def parseSepAfterMin : List Char → Option (List Char)
  | '分' :: c :: rest => if isRangeSep c then some rest else none
  | c :: rest => if isRangeSep c then some rest else none
  | [] => none

/-- Try to match the whole time-range pattern starting exactly at the head
of `cs`, returning open hour, open minute, close hour and close minute. -/
def matchRangeAt (cs : List Char) : Option (Nat × Nat × Nat × Nat) :=
  match parseHourAt cs with
  | none => none
  | some (oh, r1) =>
    match parseMin2 r1 with
    | none => none
    | some (om, r2) =>
      match parseSepAfterMin r2 with
      | none => none
      | some r3 =>
        match parseHourAt r3 with
        | none => none
        | some (ch, r4) =>
          match parseMin2 r4 with
          | none => none
          | some (cm, _) => some (oh, om, ch, cm)

/-- Leftmost match of the time-range pattern anywhere in the list, the
semantics of `String.prototype.match` with an unanchored pattern. -/
def firstRangeMatch : List Char → Option (Nat × Nat × Nat × Nat)
  | [] => none
  | c :: rest =>
    match matchRangeAt (c :: rest) with
    | some r => some r
    | none => firstRangeMatch rest

/-! ### `HoursParser.isCurrentlyOpen` -/

/-- Open/closed decision for one parsed time range at minute-of-day `t`,
lines 49-61 of src/js/hours-parser.js: when the close time precedes the
open time the close is pushed to the next day, and a current time before
the open time is compared against the unshifted close instead. -/
def rangeVerdict (openM closeM t : Nat) : Bool :=
  if closeM < openM then
    if t < openM then decide (t ≤ closeM + 24 * 60 - 24 * 60)
    else decide (openM ≤ t ∧ t ≤ closeM + 24 * 60)
  else decide (openM ≤ t ∧ t ≤ closeM)

/-- Verdict for one day-entry text at minute-of-day `t`: the closed-day
markers win, then the two 24-hour markers, then the first matched time
range; text matching nothing yields `none` (unknown). -/
def checkDayText (todayText : String) (t : Nat) : Option Bool :=
  if strIncludes todayText "定休日" || strIncludes todayText "休業日" then
    some false
  else if strIncludes todayText "24 時間営業" || strIncludes todayText "24時間営業" then
    some true
  else
    match firstRangeMatch todayText.data with
    | some (oh, om, ch, cm) =>
      some (rangeVerdict (oh * 60 + om) (ch * 60 + cm) t)
    | none => none

/-- Remap the platform weekday index (Sunday = 0) to the Monday-first
index used by the weekly table, line 23 of src/js/hours-parser.js. -/
def googleDayIndex (dayOfWeek : Nat) : Nat :=
  if dayOfWeek = 0 then 6 else dayOfWeek - 1

/-- Embedding of `HoursParser.isCurrentlyOpen` with the wall-clock observation made
explicit: `dayOfWeek` is the platform day index and `t` the minute of
day.  `none` models the JavaScript `null` (unknown); a missing or empty
entry for today is falsy in the source and yields unknown. -/
def isCurrentlyOpen (weekdayText : Option (List String)) (dayOfWeek t : Nat) :
    Option Bool :=
  match weekdayText with
  | none => none
  | some entries =>
    if entries.length = 0 then none
    else
      let todayText := entries.getD (googleDayIndex dayOfWeek) ""
      if todayText = "" then none
      else checkDayText todayText t

/-! ### Concrete weekly tables used by the examples -/

/-- A week whose Monday entry is the overnight range of the specification
examples. -/
def overnightWeek : List String := List.replicate 7 "18時00分〜2時00分"

/-- A week whose Monday entry is the standard range of the specification
examples. -/
def standardWeek : List String := List.replicate 7 "7時00分〜20時00分"

/-! ### Claim C1 -/

/-- C1: for a single parsed time range the decision of `isCurrentlyOpen`
is: when the close minute is at least the open minute, open exactly on the
inclusive interval from open to close; when the close minute is smaller
(overnight range), a current time before the open minute is open exactly
when it is at most the unshifted close minute, and otherwise the time is
compared against the close shifted by 1440.  In particular the overnight
text is open at 23:00 and 01:30 and closed at 10:00 and 03:00, and the
standard text is open at 07:00 and 20:00 and closed at 06:59 and 20:01. -/
theorem C1_time_range_semantics :
    (∀ openM closeM t : Nat,
      rangeVerdict openM closeM t =
        if openM ≤ closeM then decide (openM ≤ t ∧ t ≤ closeM)
        else if t < openM then decide (t ≤ closeM)
        else decide (openM ≤ t ∧ t ≤ closeM + 1440)) ∧
    isCurrentlyOpen (some overnightWeek) 1 (23 * 60) = some true ∧
    isCurrentlyOpen (some overnightWeek) 1 (1 * 60 + 30) = some true ∧
    isCurrentlyOpen (some overnightWeek) 1 (10 * 60) = some false ∧
    isCurrentlyOpen (some overnightWeek) 1 (3 * 60) = some false ∧
    isCurrentlyOpen (some standardWeek) 1 (7 * 60) = some true ∧
    isCurrentlyOpen (some standardWeek) 1 (20 * 60) = some true ∧
    isCurrentlyOpen (some standardWeek) 1 (6 * 60 + 59) = some false ∧
    isCurrentlyOpen (some standardWeek) 1 (20 * 60 + 1) = some false := by
  refine ⟨fun openM closeM t => ?_, by decide, by decide, by decide, by decide,
    by decide, by decide, by decide, by decide⟩
  unfold rangeVerdict
  split_ifs <;> exact decide_eq_decide.mpr (by omega)

/-! ### Claim C5 -/

/-- C5: on a nonempty weekly table, the entry consulted by
`isCurrentlyOpen` is the one at index `dayOfWeek - 1` when the platform
day index is nonzero and at index 6 when the platform day is Sunday
(index 0); in particular Sunday maps to index 6 and Monday to index 0
before the Monday-first table is indexed. -/
theorem C5_weekday_remap :
    (∀ (x : String) (xs : List String) (dayOfWeek t : Nat),
      isCurrentlyOpen (some (x :: xs)) dayOfWeek t =
        (if (x :: xs).getD (if dayOfWeek = 0 then 6 else dayOfWeek - 1) "" = ""
         then none
         else checkDayText ((x :: xs).getD (if dayOfWeek = 0 then 6 else dayOfWeek - 1) "") t)) ∧
    googleDayIndex 0 = 6 ∧ googleDayIndex 1 = 0 := by
  refine ⟨fun x xs dayOfWeek t => ?_, rfl, rfl⟩
  simp only [isCurrentlyOpen, googleDayIndex, List.length_cons]
  rw [if_neg (by omega : ¬ xs.length + 1 = 0)]

/-! ### Claim C8 -/

/-- C8: `isCurrentlyOpen` is a total function into the three verdicts
open, closed and unknown (`some true`, `some false`, `none`): it returns
unknown when the weekly table is absent or empty, when the entry for
today's weekday is absent or empty, and when today's text contains no
closed-day marker, no 24-hour marker and no match of the time-range
pattern. -/
theorem C8_total_and_unknown_cases :
    ∀ (w : List String) (dayOfWeek t : Nat) (s : String),
      isCurrentlyOpen none dayOfWeek t = none ∧
      isCurrentlyOpen (some []) dayOfWeek t = none ∧
      (w.getD (googleDayIndex dayOfWeek) "" = "" →
        isCurrentlyOpen (some w) dayOfWeek t = none) ∧
      (isCurrentlyOpen (some w) dayOfWeek t = none ∨
        isCurrentlyOpen (some w) dayOfWeek t = some true ∨
        isCurrentlyOpen (some w) dayOfWeek t = some false) ∧
      ((strIncludes s "定休日" || strIncludes s "休業日") = false →
        (strIncludes s "24 時間営業" || strIncludes s "24時間営業") = false →
        firstRangeMatch s.data = none →
        checkDayText s t = none) := by
  intro w dayOfWeek t s
  refine ⟨rfl, rfl, fun h => ?_, ?_, fun h1 h2 h3 => ?_⟩
  · simp only [isCurrentlyOpen, h]
    split_ifs <;> rfl
  · rcases hv : isCurrentlyOpen (some w) dayOfWeek t with - | b
    · exact Or.inl rfl
    · cases b
      · exact Or.inr (Or.inr rfl)
      · exact Or.inr (Or.inl rfl)
  · simp only [checkDayText, h1, h2, h3, if_neg Bool.false_ne_true]

/-- Witness for C8 at concrete inputs: an absent table, an empty table, a
one-entry table consulted on a Friday (so today's entry is absent), and a
day text that matches no known pattern. -/
theorem C8_witness :
    isCurrentlyOpen none 5 0 = none ∧
    isCurrentlyOpen (some []) 5 0 = none ∧
    isCurrentlyOpen (some ["あ"]) 5 0 = none ∧
    checkDayText "hello" 0 = none := by
  have h := C8_total_and_unknown_cases ["あ"] 5 0 "hello"
  exact ⟨h.1, h.2.1, h.2.2.1 (by decide), h.2.2.2.2 (by decide) (by decide) (by decide)⟩

/-! ### `HoursParser.estimateCongestionFromReviews` -/

/-- A review as the congestion and ambience code consumes it: the source
reads `review.text || ''`, so only the possibly-missing text field
matters. -/
structure Review where
  text : Option String
deriving DecidableEq

/-- JavaScript `review.text || ''`. -/
def reviewText (r : Review) : String := r.text.getD ""

/-- The crowded-indicator keyword list of the source. -/
def crowdedKeywords : List String :=
  ["行列", "混雑", "満席", "待ち時間", "並ぶ", "人気", "賑わ"]

/-- The empty-indicator keyword list of the source. -/
def emptyKeywords : List String :=
  ["空いて", "すいて", "ガラガラ", "貸切", "穴場"]

/-- The inner keyword loop with its early break: the counter moves by one
exactly when some keyword of the list occurs in the text. -/
def matchesAnyKeyword (t : String) (kws : List String) : Bool :=
  kws.any (fun k => strIncludes t k)

/-- Value of the crowded counter after the loop over the first five
reviews: one increment per examined review whose text contains a crowded
keyword. -/
def crowdedReviewCount (rs : List Review) : Nat :=
  ((rs.take 5).filter (fun r => matchesAnyKeyword (reviewText r) crowdedKeywords)).length

/-- Value of the empty counter after the loop over the first five
reviews. -/
def emptyReviewCount (rs : List Review) : Nat :=
  ((rs.take 5).filter (fun r => matchesAnyKeyword (reviewText r) emptyKeywords)).length

/-- Embedding of `HoursParser.estimateCongestionFromReviews`: `none` models the
JavaScript `null` (undecidable). -/
def estimateCongestionFromReviews (reviews : Option (List Review)) : Option String :=
  match reviews with
  | none => none
  | some rs =>
    if rs.length = 0 then none
    else
      if emptyReviewCount rs < crowdedReviewCount rs ∧ 2 ≤ crowdedReviewCount rs then
        some "crowded"
      else if crowdedReviewCount rs < emptyReviewCount rs ∧ 2 ≤ emptyReviewCount rs then
        some "empty"
      else none

/-! ### Claim C6 -/

/-- C6: the review-based congestion estimate examines at most the first
five reviews (the result only depends on them), each examined review
moves each counter by at most one (so each counter is bounded by the
number of examined reviews), and the result is crowded exactly when the
crowded counter exceeds the empty counter and is at least two, empty
exactly in the symmetric case, and unknown otherwise. -/
theorem C6_review_congestion :
    ∀ rs : List Review,
      estimateCongestionFromReviews (some rs) =
        estimateCongestionFromReviews (some (rs.take 5)) ∧
      crowdedReviewCount rs ≤ min 5 rs.length ∧
      emptyReviewCount rs ≤ min 5 rs.length ∧
      (estimateCongestionFromReviews (some rs) = some "crowded" ↔
        emptyReviewCount rs < crowdedReviewCount rs ∧ 2 ≤ crowdedReviewCount rs) ∧
      (estimateCongestionFromReviews (some rs) = some "empty" ↔
        crowdedReviewCount rs < emptyReviewCount rs ∧ 2 ≤ emptyReviewCount rs) ∧
      (estimateCongestionFromReviews (some rs) = none ↔
        ((crowdedReviewCount rs ≤ emptyReviewCount rs ∨ crowdedReviewCount rs < 2) ∧
         (emptyReviewCount rs ≤ crowdedReviewCount rs ∨ emptyReviewCount rs < 2))) := by
  intro rs
  have hcc : crowdedReviewCount (rs.take 5) = crowdedReviewCount rs := by
    simp [crowdedReviewCount, List.take_take]
  have hec : emptyReviewCount (rs.take 5) = emptyReviewCount rs := by
    simp [emptyReviewCount, List.take_take]
  have hclen : crowdedReviewCount rs ≤ min 5 rs.length := by
    calc crowdedReviewCount rs ≤ (rs.take 5).length := List.length_filter_le _ _
      _ = min 5 rs.length := List.length_take 5 rs
  have helen : emptyReviewCount rs ≤ min 5 rs.length := by
    calc emptyReviewCount rs ≤ (rs.take 5).length := List.length_filter_le _ _
      _ = min 5 rs.length := List.length_take 5 rs
  refine ⟨?_, hclen, helen, ?_, ?_, ?_⟩
  · simp only [estimateCongestionFromReviews, hcc, hec, List.length_take]
    rcases Nat.eq_zero_or_pos rs.length with h0 | h0
    · rw [if_pos h0, if_pos (by omega : min 5 rs.length = 0)]
    · rw [if_neg (by omega : ¬ rs.length = 0), if_neg (by omega : ¬ min 5 rs.length = 0)]
  all_goals
    simp only [estimateCongestionFromReviews]
    rcases Nat.eq_zero_or_pos rs.length with h0 | h0
    · have hc0 : crowdedReviewCount rs = 0 := by omega
      have he0 : emptyReviewCount rs = 0 := by omega
      rw [if_pos h0]
      simp [hc0, he0]
    · rw [if_neg (by omega : ¬ rs.length = 0)]
      split_ifs with h1 h2 <;> simp <;> omega

/-! ### `PlacesService`: candidate records -/

/-- A candidate place as the filter, sort and congestion code consumes
it: nullable fields are `Option`, numeric fields that are JavaScript
floats are `ℚ`.  `isOpen` is the tri-state open-now verdict. -/
structure Place where
  rating : Option ℚ
  ratingsTotal : Option Nat
  priceLevel : Option Nat
  isOpen : Option Bool
  distance : ℚ
deriving DecidableEq

/-- A congestion verdict: level, display label and color. -/
structure CongestionVerdict where
  level : String
  label : String
  color : String
deriving DecidableEq

/-! ### `PlacesService.estimateCongestion` -/

/-- Time-of-day score, lines 256-266 of the source: 3 at the lunch and
dinner peaks, 1 in the afternoon lull, 2 otherwise, plus 1 on a weekend
(platform day 0 is Sunday and 6 is Saturday). -/
def timeScoreOf (hour day : Nat) : Nat :=
  if (11 ≤ hour ∧ hour ≤ 13) ∨ (18 ≤ hour ∧ hour ≤ 20) then
    if day = 0 ∨ day = 6 then 3 + 1 else 3
  else if 14 ≤ hour ∧ hour ≤ 17 then
    if day = 0 ∨ day = 6 then 1 + 1 else 1
  else
    if day = 0 ∨ day = 6 then 2 + 1 else 2

/-- Popularity score, lines 268-275 of the source: the highest met
review-count threshold only, plus 1 for a rating of at least 4.3. -/
def popularityScoreOf (reviewCount : Nat) (rating : ℚ) : Nat :=
  if 500 < reviewCount then
    if 4.3 ≤ rating then 3 + 1 else 3
  else if 100 < reviewCount then
    if 4.3 ≤ rating then 2 + 1 else 2
  else if 30 < reviewCount then
    if 4.3 ≤ rating then 1 + 1 else 1
  else
    if 4.3 ≤ rating then 0 + 1 else 0

/-- Embedding of `PlacesService.estimateCongestion` on the already-defaulted inputs,
with the wall-clock observation (hour of day and platform weekday) made
explicit. -/
def estimateCongestion (hour day reviewCount : Nat) (rating : ℚ) : CongestionVerdict :=
  if 6 ≤ timeScoreOf hour day + popularityScoreOf reviewCount rating then
    CongestionVerdict.mk "high" "混雑" "#e57373"
  else if 4 ≤ timeScoreOf hour day + popularityScoreOf reviewCount rating then
    CongestionVerdict.mk "medium" "やや混雑" "#ffb74d"
  else if 2 ≤ timeScoreOf hour day + popularityScoreOf reviewCount rating then
    CongestionVerdict.mk "low" "普通" "#81c784"
  else
    CongestionVerdict.mk "empty" "空いている" "#4fc3f7"

/-- JavaScript `place.rating || 3.0`: an absent or zero rating defaults
to 3.0 before scoring. -/
def ratingOrDefault (r : Option ℚ) : ℚ :=
  match r with
  | none => 3
  | some x => if x = 0 then 3 else x

/-- JavaScript `place.user_ratings_total || 0`. -/
def ratingCountOrZero (c : Option Nat) : Nat :=
  match c with
  | none => 0
  | some n => n

/-- The function `estimateCongestion` as it is called on a place record, applying the
source's defaulting of the two popularity inputs. -/
def estimateCongestionOfPlace (hour day : Nat) (p : Place) : CongestionVerdict :=
  estimateCongestion hour day (ratingCountOrZero p.ratingsTotal) (ratingOrDefault p.rating)

/-! ### Claim C2 -/

/-- The reference congestion verdict, following the specification text:
time score 3 on the interval pair, 1 on the lull, else 2, plus 1 on
Saturday or Sunday; popularity score from the highest met threshold,
plus 1 for a rating of at least 4.3; total at least 6 is high, at least
4 is medium, at least 2 is low, else empty, each with its fixed label
and color. -/
def congestionSpec (hour day reviewCount : Nat) (rating : ℚ) : CongestionVerdict :=
  let timeScore : Nat :=
    (if (11 ≤ hour ∧ hour ≤ 13) ∨ (18 ≤ hour ∧ hour ≤ 20) then 3
     else if 14 ≤ hour ∧ hour ≤ 17 then 1
     else 2)
    + (if day = 6 ∨ day = 0 then 1 else 0)
  let popularityScore : Nat :=
    (if 500 < reviewCount then 3
     else if 100 < reviewCount then 2
     else if 30 < reviewCount then 1
     else 0)
    + (if (43 : ℚ) / 10 ≤ rating then 1 else 0)
  let total := timeScore + popularityScore
  if 6 ≤ total then CongestionVerdict.mk "high" "混雑" "#e57373"
  else if 4 ≤ total then CongestionVerdict.mk "medium" "やや混雑" "#ffb74d"
  else if 2 ≤ total then CongestionVerdict.mk "low" "普通" "#81c784"
  else CongestionVerdict.mk "empty" "空いている" "#4fc3f7"

/-- C2: for every hour of day, weekday, rating count and rating the
congestion verdict of the source equals the reference definition taken
from the specification. -/
theorem C2_congestion_matches_spec :
    ∀ (hour day reviewCount : Nat) (rating : ℚ),
      estimateCongestion hour day reviewCount rating =
        congestionSpec hour day reviewCount rating := by
  intro hour day reviewCount rating
  have h43 : ((4.3 : ℚ) ≤ rating) = ((43 : ℚ) / 10 ≤ rating) := by norm_num
  have hts : timeScoreOf hour day =
      (if (11 ≤ hour ∧ hour ≤ 13) ∨ (18 ≤ hour ∧ hour ≤ 20) then 3
       else if 14 ≤ hour ∧ hour ≤ 17 then 1
       else 2)
      + (if day = 6 ∨ day = 0 then 1 else 0) := by
    unfold timeScoreOf
    split_ifs <;> omega
  have hps : popularityScoreOf reviewCount rating =
      (if 500 < reviewCount then 3
       else if 100 < reviewCount then 2
       else if 30 < reviewCount then 1
       else 0)
      + (if (43 : ℚ) / 10 ≤ rating then 1 else 0) := by
    unfold popularityScoreOf
    simp only [h43]
    split_ifs <;> omega
  unfold estimateCongestion congestionSpec
  rw [hts, hps]

/-! ### Claim C10 -/

/-- C10: an absent (or zero) rating is scored as if it were 3.0, so the
rating bonus threshold of 4.3 is strictly above the default and the bonus
is never applied for absent ratings; the sort stage instead treats an
absent rating as 0, and an absent rating count is treated as 0. -/
theorem C10_absent_rating_default :
    ∀ (hour day : Nat) (c : Option Nat) (pl : Option Nat) (io : Option Bool) (d : ℚ),
      ratingOrDefault none = 3 ∧
      ratingOrDefault (some 0) = 3 ∧
      ratingOrDefault none < 4.3 ∧
      estimateCongestionOfPlace hour day (Place.mk none c pl io d) =
        estimateCongestion hour day (ratingCountOrZero c) 3 ∧
      ratingCountOrZero none = 0 := by
  intro hour day c pl io d
  refine ⟨rfl, by norm_num [ratingOrDefault], by norm_num [ratingOrDefault], rfl, rfl⟩

/-! ### `PlacesService.searchNearby`: the filter stage -/

/-- The budget predicate applied when a price range is configured: a
candidate with no price level passes, otherwise the level must lie in
the inclusive range. -/
def priceFilterPred (pr : Nat × Nat) (p : Place) : Bool :=
  match p.priceLevel with
  | none => true
  | some pl => decide (pr.1 ≤ pl ∧ pl ≤ pr.2)

/-- Lines 103-119 of the source: keep only candidates whose open-now
verdict is strictly `true`, then only those within the radius, then,
when a price range was resolved from the budget, only those passing the
budget predicate. -/
def filterStage (places : List Place) (radius : ℚ) (priceRange : Option (Nat × Nat)) :
    List Place :=
  let openPlaces := places.filter (fun p => p.isOpen == some true)
  let nearPlaces := openPlaces.filter (fun p => decide (p.distance ≤ radius))
  match priceRange with
  | none => nearPlaces
  | some pr => nearPlaces.filter (fun p => priceFilterPred pr p)

/-! ### Claim C3 -/

/-- C3: the filter stage keeps exactly the candidates that are open
(closed and unknown both excluded), within the maximum distance, and,
when a price range is specified, either have no price tier or a price
tier inside the inclusive range. -/
theorem C3_filter_stage :
    ∀ (places : List Place) (radius : ℚ) (priceRange : Option (Nat × Nat)),
      filterStage places radius priceRange =
        places.filter (fun p =>
          p.isOpen == some true &&
          decide (p.distance ≤ radius) &&
          (match priceRange with
           | none => true
           | some pr => priceFilterPred pr p)) ∧
      (∀ p : Place,
        p ∈ filterStage places radius priceRange ↔
          p ∈ places ∧ p.isOpen = some true ∧ p.distance ≤ radius ∧
          (match priceRange with
           | none => True
           | some pr =>
             p.priceLevel = none ∨
             (∃ pl, p.priceLevel = some pl ∧ pr.1 ≤ pl ∧ pl ≤ pr.2))) := by
  intro places radius priceRange
  constructor
  · cases priceRange with
    | none =>
      simp only [filterStage, List.filter_filter]
      exact List.filter_congr (fun p _ => by
        simp only [Bool.and_true]
        rw [Bool.and_comm])
    | some pr =>
      simp only [filterStage, List.filter_filter]
      exact List.filter_congr (fun p _ => by
        cases p.isOpen == some true <;>
          cases decide (p.distance ≤ radius) <;>
          cases priceFilterPred pr p <;> rfl)
  · intro p
    simp only [filterStage]
    cases priceRange with
    | none =>
      simp only [List.mem_filter, beq_iff_eq, decide_eq_true_eq, and_assoc, and_true]
    | some pr =>
      simp only [List.mem_filter, beq_iff_eq, decide_eq_true_eq, and_assoc]
      refine and_congr_right (fun _ => and_congr_right (fun _ => and_congr_right (fun _ => ?_)))
      unfold priceFilterPred
      cases hpl : p.priceLevel with
      | none => simp
      | some pl => simp

/-! ### `PlacesService.searchNearby`: the sort stage

The source sorts with the comparator of lines 122-126: rating
difference descending, then review-count difference descending, absent
values as 0.  `Array.prototype.sort` is stable, and the output of a
stable sort is determined by the total preorder the comparator induces,
so the stage is embedded as a stable sort (insertion sort) with respect
to the relation `comparator a b ≤ 0`. -/

/-- JavaScript `p.rating || 0` as read by the sort comparator. -/
def sortRating (p : Place) : ℚ :=
  match p.rating with
  | none => 0
  | some x => x

/-- JavaScript `p.ratingsTotal || 0` as read by the sort comparator. -/
def sortCount (p : Place) : Nat := ratingCountOrZero p.ratingsTotal

/-- The relation `comparator a b ≤ 0`: `a` may come before `b` exactly
when `a` has the larger rating, or equal ratings and at least the
review count of `b`. -/
def PlaceOrder (a b : Place) : Prop :=
  sortRating b < sortRating a ∨
    (sortRating a = sortRating b ∧ sortCount b ≤ sortCount a)

instance : DecidableRel PlaceOrder := fun a b => by
  unfold PlaceOrder
  infer_instance

instance : IsTotal Place PlaceOrder where
  total a b := by
    unfold PlaceOrder
    rcases lt_trichotomy (sortRating a) (sortRating b) with h | h | h
    · exact Or.inr (Or.inl h)
    · rcases Nat.le_total (sortCount b) (sortCount a) with hc | hc
      · exact Or.inl (Or.inr ⟨h, hc⟩)
      · exact Or.inr (Or.inr ⟨h.symm, hc⟩)
    · exact Or.inl (Or.inl h)

instance : IsTrans Place PlaceOrder where
  trans a b c hab hbc := by
    unfold PlaceOrder at *
    rcases hab with h1 | ⟨h1, h1c⟩ <;> rcases hbc with h2 | ⟨h2, h2c⟩
    · exact Or.inl (h2.trans h1)
    · exact Or.inl (by rw [h2] at h1; exact h1)
    · exact Or.inl (by rw [h1]; exact h2)
    · exact Or.inr ⟨h1.trans h2, h2c.trans h1c⟩

/-- The sort stage: the stable sort induced by the source comparator. -/
def sortStage (places : List Place) : List Place :=
  places.insertionSort PlaceOrder

/-- The three example candidates of the specification: ratings 4.5, 4.5
and 3.0 with review counts 10, 50 and 999, all open and at distance 0. -/
def examplePlaceA : Place := Place.mk (some 4.5) (some 10) none (some true) 0

/-- Second example candidate, rating 4.5 with count 50. -/
def examplePlaceB : Place := Place.mk (some 4.5) (some 50) none (some true) 0

/-- Third example candidate, rating 3.0 with count 999. -/
def examplePlaceC : Place := Place.mk (some 3.0) (some 999) none (some true) 0

/-- Two candidates with identical sort keys, distinguished only by their
price level, used to exhibit stability on exact ties. -/
def tiePlaceA : Place := Place.mk (some 4) (some 7) (some 1) (some true) 0

/-- The tie partner of `tiePlaceA`. -/
def tiePlaceB : Place := Place.mk (some 4) (some 7) (some 2) (some true) 0

/-! ### Claim C4 -/

/-- C4: the sort stage returns a permutation of its input ordered by
rating descending (absent rating as 0) with ties broken by review count
descending (absent count as 0); it is stable, so candidates equal on
both keys keep their original relative order; and on the specification
example with ratings 4.5, 4.5, 3.0 and counts 10, 50, 999 it returns
the 4.5/50 candidate, then the 4.5/10 candidate, then the 3.0/999
candidate. -/
theorem C4_sort_stage :
    ∀ places : List Place,
      List.Perm (sortStage places) places ∧
      List.Pairwise
        (fun a b =>
          sortRating b < sortRating a ∨
            (sortRating a = sortRating b ∧ sortCount b ≤ sortCount a))
        (sortStage places) ∧
      (∀ a b : Place, sortRating a = sortRating b → sortCount a = sortCount b →
        List.Sublist [a, b] places → List.Sublist [a, b] (sortStage places)) ∧
      sortStage [examplePlaceA, examplePlaceB, examplePlaceC] =
        [examplePlaceB, examplePlaceA, examplePlaceC] := by
  intro places
  refine ⟨List.perm_insertionSort PlaceOrder places,
    List.sorted_insertionSort PlaceOrder places, ?_, ?_⟩
  · intro a b hr hc hsub
    exact List.pair_sublist_insertionSort
      (Or.inr ⟨hr, Nat.le_of_eq (congrArg id hc).symm⟩) hsub
  · have hBA : PlaceOrder examplePlaceB examplePlaceA := by
      unfold PlaceOrder examplePlaceA examplePlaceB sortRating sortCount ratingCountOrZero
      norm_num
    have hnAB : ¬ PlaceOrder examplePlaceA examplePlaceB := by
      unfold PlaceOrder examplePlaceA examplePlaceB sortRating sortCount ratingCountOrZero
      norm_num
    have hnCB : ¬ PlaceOrder examplePlaceC examplePlaceB := by
      unfold PlaceOrder examplePlaceC examplePlaceB sortRating sortCount ratingCountOrZero
      norm_num
    have hnCA : ¬ PlaceOrder examplePlaceC examplePlaceA := by
      unfold PlaceOrder examplePlaceC examplePlaceA sortRating sortCount ratingCountOrZero
      norm_num
    have hBC : PlaceOrder examplePlaceB examplePlaceC := by
      unfold PlaceOrder examplePlaceB examplePlaceC sortRating sortCount ratingCountOrZero
      norm_num
    have hAC : PlaceOrder examplePlaceA examplePlaceC := by
      unfold PlaceOrder examplePlaceA examplePlaceC sortRating sortCount ratingCountOrZero
      norm_num
    simp [sortStage, List.insertionSort, List.orderedInsert, hBA, hnAB, hnCB, hnCA, hBC, hAC]

/-- Witness for C4: the concrete example order from the specification,
and stability on a concrete exact tie (the two tie candidates keep
their relative order below a higher-rated third candidate). -/
theorem C4_sort_stage_witness :
    sortStage [examplePlaceA, examplePlaceB, examplePlaceC] =
      [examplePlaceB, examplePlaceA, examplePlaceC] ∧
    List.Sublist [tiePlaceA, tiePlaceB]
      (sortStage [examplePlaceA, tiePlaceA, tiePlaceB]) := by
  constructor
  · exact (C4_sort_stage [examplePlaceA, examplePlaceB, examplePlaceC]).2.2.2
  · exact (C4_sort_stage [examplePlaceA, tiePlaceA, tiePlaceB]).2.2.1 tiePlaceA tiePlaceB
      rfl rfl ((List.Sublist.refl [tiePlaceA, tiePlaceB]).cons examplePlaceA)

/-! ### `PlacesService.extractAtmosphereFromReviews` -/

/-- An ambience rule: the alternatives of its case-insensitive pattern
and the tag it emits. -/
structure AtmosphereRule where
  alternatives : List String
  tag : String
deriving DecidableEq

/-- The fixed ordered rule list of the source, lines 309-321. -/
def atmosphereRules : List AtmosphereRule :=
  [AtmosphereRule.mk ["高層", "眺め", "景色", "ビュー", "夜景", "view"] "🏙️ 眺望が良い",
   AtmosphereRule.mk ["一軒家", "隠れ家", "古民家"] "🏠 一軒家・隠れ家",
   AtmosphereRule.mk ["個室", "プライベート", "半個室"] "🚪 個室あり",
   AtmosphereRule.mk ["テラス", "屋上", "オープン"] "🌿 テラス席",
   AtmosphereRule.mk ["デート", "記念日", "誕生日", "ロマンチック"] "💑 デート向き",
   AtmosphereRule.mk ["おしゃれ", "スタイリッシュ", "モダン"] "✨ おしゃれ",
   AtmosphereRule.mk ["落ち着", "静か", "大人", "上品"] "🕯️ 落ち着いた雰囲気",
   AtmosphereRule.mk ["広い", "開放", "ゆったり"] "🏛️ 開放的",
   AtmosphereRule.mk ["カウンター", "一人", "ソロ"] "🍸 カウンター席",
   AtmosphereRule.mk ["接客", "サービス", "ホスピタリティ"] "👤 サービス◎",
   AtmosphereRule.mk ["コスパ", "リーズナブル", "お得"] "💰 コスパ良好"]

/-- ASCII lowering, the only effect of the case-insensitive flag on
these literal alternatives. -/
def asciiLower (c : Char) : Char :=
  if 'A' ≤ c ∧ c ≤ 'Z' then Char.ofNat (c.toNat + 32) else c

/-- Case-insensitive test of a pattern (an alternation of literal
substrings) against a review text. -/
def patternMatches (alts : List String) (text : String) : Bool :=
  alts.any (fun a => listContainsSub (a.data.map asciiLower) (text.data.map asciiLower))

/-- The body of the inner rule loop: when the pattern matches and fewer
than four tags are collected, the tag is added to the set (a no-op when
it is already present, preserving its original position). -/
def atmosphereStep (text : String) (acc : List String) (r : AtmosphereRule) : List String :=
  if patternMatches r.alternatives text ∧ acc.length < 4 then
    if r.tag ∈ acc then acc else acc ++ [r.tag]
  else acc

/-- Embedding of `PlacesService.extractAtmosphereFromReviews`: the double loop of the
source, reviews outer and rules inner, returning the insertion-ordered
set of collected tags. -/
def extractAtmosphereFromReviews (reviews : List Review) : List String :=
  reviews.foldl
    (fun acc rv => atmosphereRules.foldl (fun acc2 r => atmosphereStep (reviewText rv) acc2 r) acc)
    []

/-! ### Reference functions for claim C7 -/

/-- Every matched tag, with multiplicity, in the order the double loop
scans them: reviews in the given order and, within one review, rules in
rule-list order. -/
def matchedTagsInScanOrder : List Review → List String
  | [] => []
  | rv :: rest =>
    (atmosphereRules.filter
        (fun r => patternMatches r.alternatives (reviewText rv))).map
      (fun r => r.tag)
    ++ matchedTagsInScanOrder rest

/-- One step of first-occurrence deduplication. -/
def dedupStep (acc : List String) (x : String) : List String :=
  if x ∈ acc then acc else acc ++ [x]

/-- First occurrences kept in order, duplicates dropped. -/
def dedupKeepFirst (l : List String) : List String :=
  l.foldl dedupStep []

/-- The uncapped add step of the source, with the four-tag gate made
explicit on the outside. -/
def cappedDedupStep (acc : List String) (x : String) : List String :=
  if acc.length < 4 then dedupStep acc x else acc

/-- The order the claim asserts: the tags of the matched rules in
rule-list order. -/
def ruleOrderTags (reviews : List Review) : List String :=
  (atmosphereRules.filter
      (fun r => reviews.any (fun rv => patternMatches r.alternatives (reviewText rv)))).map
    (fun r => r.tag)

/-- The concrete two-review counterexample input: the first review
matches only the seventh rule, the second review only the third rule. -/
def counterexampleReviews : List Review :=
  [Review.mk (some "静か"), Review.mk (some "個室")]

/-- A single review matching six distinct rules, exercising the
four-tag cap. -/
def sixMatchReview : Review :=
  Review.mk (some "夜景の個室でテラスのデート、おしゃれで静か")

/-- The capped scan equals first-occurrence deduplication truncated to
four entries. -/
theorem foldl_cappedDedupStep_eq (l : List String) :
    ∀ acc : List String,
      l.foldl cappedDedupStep (acc.take 4) = (l.foldl dedupStep acc).take 4 := by
  induction l with
  | nil => intro acc; rfl
  | cons x rest ih =>
    intro acc
    have hstep : cappedDedupStep (acc.take 4) x = (dedupStep acc x).take 4 := by
      unfold cappedDedupStep dedupStep
      rcases Nat.lt_or_ge acc.length 4 with hlen | hlen
      · rw [List.take_of_length_le (by omega : acc.length ≤ 4)]
        rw [if_pos hlen]
        split_ifs with hmem
        · exact (List.take_of_length_le (by omega : acc.length ≤ 4)).symm
        · exact (List.take_of_length_le (by
            rw [List.length_append, List.length_singleton]; omega)).symm
      · rw [if_neg (by rw [List.length_take]; omega : ¬ (acc.take 4).length < 4)]
        split_ifs with hmem
        · rfl
        · exact (List.take_append_of_le_length (by omega : 4 ≤ acc.length)).symm
    simp only [List.foldl_cons, hstep, ih]

/-- The double loop of the source equals the capped scan over the
matched tags taken in scan order. -/
theorem extract_eq_foldl_matchedTags (reviews : List Review) :
    ∀ acc : List String,
      reviews.foldl
        (fun acc rv =>
          atmosphereRules.foldl (fun acc2 r => atmosphereStep (reviewText rv) acc2 r) acc)
        acc =
      (matchedTagsInScanOrder reviews).foldl cappedDedupStep acc := by
  have hrules : ∀ (text : String) (rules : List AtmosphereRule) (acc : List String),
      rules.foldl (fun acc2 r => atmosphereStep text acc2 r) acc =
        ((rules.filter (fun r => patternMatches r.alternatives text)).map
          (fun r => r.tag)).foldl cappedDedupStep acc := by
    intro text rules
    induction rules with
    | nil => intro acc; rfl
    | cons r rest ih =>
      intro acc
      by_cases hm : patternMatches r.alternatives text = true
      · have hstep : atmosphereStep text acc r = cappedDedupStep acc r.tag := by
          unfold atmosphereStep cappedDedupStep dedupStep
          rcases Nat.lt_or_ge acc.length 4 with hlen | hlen
          · rw [if_pos ⟨hm, hlen⟩, if_pos hlen]
          · rw [if_neg (fun hcon => absurd hcon.2 (by omega)),
              if_neg (by omega : ¬ acc.length < 4)]
        have hfilter : (r :: rest).filter (fun r => patternMatches r.alternatives text) =
            r :: rest.filter (fun r => patternMatches r.alternatives text) := by
          simp [List.filter_cons, hm]
        rw [List.foldl_cons, hstep, ih, hfilter, List.map_cons, List.foldl_cons]
      · have hstep : atmosphereStep text acc r = acc := by
          unfold atmosphereStep
          rw [if_neg (fun hcon => absurd hcon.1 hm)]
        have hfilter : (r :: rest).filter (fun r => patternMatches r.alternatives text) =
            rest.filter (fun r => patternMatches r.alternatives text) := by
          simp [List.filter_cons, hm]
        rw [List.foldl_cons, hstep, ih, hfilter]
  induction reviews with
  | nil => intro acc; rfl
  | cons rv rest ih =>
    intro acc
    simp only [matchedTagsInScanOrder, List.foldl_append, List.foldl_cons]
    rw [ih, hrules]

/-! ### Claim C7 -/

/-- Counterexample to C7 as stated: on the two-review input the source
returns the seventh rule's tag first because it matched the earlier
review, while rule-list order of the matched rules puts the third
rule's tag first; the two orders disagree. -/
theorem C7_counterexample_rule_order :
    extractAtmosphereFromReviews counterexampleReviews =
      ["🕯️ 落ち着いた雰囲気", "🚪 個室あり"] ∧
    ruleOrderTags counterexampleReviews =
      ["🚪 個室あり", "🕯️ 落ち着いた雰囲気"] ∧
    decide (extractAtmosphereFromReviews counterexampleReviews =
      ruleOrderTags counterexampleReviews) = false := by
  refine ⟨by decide, by decide, by decide⟩

/-- C7 amended: the extraction returns the first four distinct matched
tags of a scan that visits reviews in order and, within each review,
rules in rule-list order — first-occurrence deduplication truncated to
four entries, so at most four distinct tags and further matches are
ignored, not replaced; the insertion order follows that scan (rule-list
order holds within a single review but earlier reviews take precedence),
and on a single review matching six rules exactly the first four tags in
rule-list order are returned. -/
theorem C7_amended_scan_order :
    ∀ reviews : List Review,
      extractAtmosphereFromReviews reviews =
        (dedupKeepFirst (matchedTagsInScanOrder reviews)).take 4 ∧
      (extractAtmosphereFromReviews reviews).length ≤ 4 ∧
      extractAtmosphereFromReviews [sixMatchReview] =
        ["🏙️ 眺望が良い", "🚪 個室あり", "🌿 テラス席", "💑 デート向き"] := by
  intro reviews
  have key : extractAtmosphereFromReviews reviews =
      (dedupKeepFirst (matchedTagsInScanOrder reviews)).take 4 := by
    unfold extractAtmosphereFromReviews dedupKeepFirst
    rw [extract_eq_foldl_matchedTags]
    exact foldl_cappedDedupStep_eq (matchedTagsInScanOrder reviews) []
  refine ⟨key, ?_, by decide⟩
  rw [key]
  calc ((dedupKeepFirst (matchedTagsInScanOrder reviews)).take 4).length
      = min 4 (dedupKeepFirst (matchedTagsInScanOrder reviews)).length :=
        List.length_take 4 _
    _ ≤ 4 := Nat.min_le_left 4 _

end LetsEat
